import Mathlib

/-!
Shallow embedding of the playback pacing and control core of the
`ws-stream-mcap` example (files `time_tracker.hpp`, `mcap_player.cpp`,
`main.cpp`).

Modelling conventions:
* Log times and wall-clock instants are nanosecond counts, embedded as `Nat`
  (`std::chrono::steady_clock::time_point` and `uint64_t` values; none of the
  verified operations performs arithmetic that can wrap a `uint64_t` on the
  inputs reachable in the program).
* `float` inputs are embedded as `FloatVal`: either a finite rational value or
  one of the non-finite classes (`nan`, `posInf`, `negInf`).  Stored,
  already-clamped speeds are plain rationals.
* The C++ pattern `static_cast<uint64_t>(double_expression)` applied to a
  non-negative product/quotient is embedded as the rational floor
  (`castUInt64`).  Every place the source evaluates that same expression is
  embedded by the same Lean function, so cross-call cancellation facts hold
  exactly, as they do in the source where the identical expression is
  evaluated at the same instant.
* Functions that read `std::chrono::steady_clock::now()` take the sampled
  instant `now : Nat` as an explicit argument.
-/

/-- The classification of a C++ `float` input: a finite value (carried as an
exact rational) or one of the non-finite classes. -/
inductive FloatVal where
  | finite (q : ℚ)
  | nan
  | posInf
  | negInf
deriving DecidableEq

namespace FloatVal

/-- `std::isfinite`. -/
def isFinite : FloatVal → Bool
  | finite _ => true
  | _ => false

end FloatVal

/-- `static_cast<uint64_t>` of a non-negative floating value: truncation
toward zero, i.e. the floor for non-negative arguments. -/
def castUInt64 (q : ℚ) : Nat :=
  q.floor.toNat

/-- `TimeTracker::kMinPlaybackSpeed` (`0.01f`). -/
def kMinPlaybackSpeed : ℚ := 1 / 100

/-- `TimeTracker::clampSpeed`: returns the input if it is finite and at least
`kMinPlaybackSpeed`, otherwise the minimum.  (`speed >= kMin` is false for
`nan`, and `isfinite` is false for infinities, so every non-finite input falls
through to the minimum.) -/
def clampSpeed : FloatVal → ℚ
  | FloatVal.finite q => if kMinPlaybackSpeed ≤ q then q else kMinPlaybackSpeed
  | _ => kMinPlaybackSpeed

/-- The state of a `TimeTracker` (fields of `time_tracker.hpp`).  `start` is
the wall-clock anchor (`start_`), `speed` the stored post-clamp speed. -/
structure TimeTracker where
  start : Nat
  offset_ns : Nat
  speed : ℚ
  paused : Bool
  paused_elapsed_ns : Nat
  notify_interval_ns : Nat
  notify_last : Nat
deriving DecidableEq

namespace TimeTracker

/-- The `TimeTracker(offset_ns, speed)` constructor, sampling `now` for
`start_`. -/
def init (now offset_ns : Nat) (speed : FloatVal) : TimeTracker :=
  { start := now
    offset_ns := offset_ns
    speed := clampSpeed speed
    paused := false
    paused_elapsed_ns := 0
    notify_interval_ns := 1000000000 / 60
    notify_last := 0 }

/-- The elapsed-log-nanoseconds expression
`static_cast<uint64_t>(duration<double, nano>(now - start).count() * speed)`
that `currentLogTime`, `pause` and `setSpeed` all evaluate. -/
def elapsedNs (now start : Nat) (speed : ℚ) : Nat :=
  castUInt64 (((now - start : Nat) : ℚ) * speed)

/-- `TimeTracker::currentLogTime`. -/
def currentLogTime (tt : TimeTracker) (now : Nat) : Nat :=
  if tt.paused then
    tt.offset_ns + tt.paused_elapsed_ns
  else
    tt.offset_ns + tt.paused_elapsed_ns + elapsedNs now tt.start tt.speed

/-- `TimeTracker::wakeupFor`: the wall-clock instant at which a message with
the given log time should be emitted. -/
def wakeupFor (tt : TimeTracker) (now log_time : Nat) : Nat :=
  let current := tt.currentLogTime now
  if log_time ≤ current then
    now
  else
    let log_diff_ns := log_time - current
    let wall_diff_ns :=
      if 0 < tt.speed then
        castUInt64 ((log_diff_ns : ℚ) / tt.speed)
      else
        1000000000
    now + wall_diff_ns

/-- `TimeTracker::pause`. -/
def pause (tt : TimeTracker) (now : Nat) : TimeTracker :=
  if tt.paused then
    tt
  else
    { tt with
        paused_elapsed_ns := tt.paused_elapsed_ns + elapsedNs now tt.start tt.speed
        paused := true }

/-- `TimeTracker::resume`. -/
def resume (tt : TimeTracker) (now : Nat) : TimeTracker :=
  if tt.paused then
    { tt with start := now, paused := false }
  else
    tt

/-- `TimeTracker::setSpeed`. -/
def setSpeed (tt : TimeTracker) (now : Nat) (speed : FloatVal) : TimeTracker :=
  let clamped := clampSpeed speed
  if tt.paused then
    { tt with speed := clamped }
  else
    { tt with
        paused_elapsed_ns := tt.paused_elapsed_ns + elapsedNs now tt.start tt.speed
        start := now
        speed := clamped }

/-- `TimeTracker::notify`: returns the timestamp to broadcast (when the ~60 Hz
interval has elapsed) together with the updated tracker. -/
def notify (tt : TimeTracker) (current_ns : Nat) : Option Nat × TimeTracker :=
  if tt.notify_interval_ns ≤ current_ns - tt.notify_last then
    (some current_ns, { tt with notify_last := current_ns })
  else
    (none, tt)

/-- The spec's `log_anchor`: the accumulated log-time-equivalent elapsed
carried across pauses and speed changes (`offset_ns_ + paused_elapsed_ns_`). -/
def logAnchor (tt : TimeTracker) : Nat :=
  tt.offset_ns + tt.paused_elapsed_ns

end TimeTracker

/-- `foxglove::PlaybackStatus` (used as `Paused`, `Playing`, `Ended` by the
example). -/
inductive PlaybackStatus where
  | Paused
  | Playing
  | Ended
deriving DecidableEq

/-- One MCAP message record as seen by the player: its channel id and log
time (the payload bytes are irrelevant to the verified properties). -/
structure Record where
  channelId : Nat
  logTime : Nat
deriving DecidableEq

/-- Modelled from the spec: the shape of `foxglove::PlaybackControlRequest`
(§6 of the spec; the struct itself is declared in the SDK headers outside the
sources at hand, and the example reads exactly the fields `request_id`,
`playback_command`, `playback_speed`, `seek_time`).  `command = true` stands
for `Play`, `false` for `Pause`; `request_id` is abstracted to a `Nat`. -/
structure PlaybackControlRequest where
  request_id : Nat
  playback_command : Bool
  playback_speed : FloatVal
  seek_time : Option Nat
deriving DecidableEq

/-- Modelled from the spec: the shape of the `foxglove::PlaybackState` reply
(§6 of the spec), with the fields in the order the example's handler
initializes them. -/
structure PlaybackState where
  status : PlaybackStatus
  current_time : Nat
  speed : ℚ
  did_seek : Bool
  request_id : Option Nat
deriving DecidableEq

/-- The state of an `McapPlayer` (`mcap_player.hpp`).  `corpus` is the full
log-time-ordered message list of the MCAP file; `records` is the remaining
suffix exposed by the current `LinearMessageView` iterator; `channels` is the
set of channel ids for which a `RawChannel` was created. -/
structure McapPlayer where
  corpus : List Record
  channels : List Nat
  records : List Record
  time_tracker : Option TimeTracker
  time_range : Nat × Nat
  status : PlaybackStatus
  current_time : Nat
  playback_speed : ℚ
deriving DecidableEq

namespace McapPlayer

/-- `McapPlayer::resetMessageView`: re-creates the message view to read from
`start_time` (inclusive) to `time_range_.second + 1` (exclusive), and resets
the time tracker to empty. -/
def resetMessageView (p : McapPlayer) (start_time : Nat) : McapPlayer :=
  { p with
      records := p.corpus.filter fun r =>
        decide (start_time ≤ r.logTime) && decide (r.logTime < p.time_range.2 + 1)
      time_tracker := none }

/-- `McapPlayer::seek`: clamp the target into the corpus time range,
reposition the message view, set the current time, and revive `Ended` into
`Paused`.  Always returns `true`. -/
def seek (p : McapPlayer) (log_time : Nat) : Bool × McapPlayer :=
  let clamped := max p.time_range.1 (min log_time p.time_range.2)
  let p := p.resetMessageView clamped
  let p := { p with current_time := clamped }
  let p :=
    if p.status = PlaybackStatus.Ended then
      { p with status := PlaybackStatus.Paused }
    else
      p
  (true, p)

/-- `McapPlayer::setPlaybackSpeed`. -/
def setPlaybackSpeed (p : McapPlayer) (now : Nat) (speed : FloatVal) : McapPlayer :=
  let clamped := clampSpeed speed
  { p with
      time_tracker := p.time_tracker.map fun tt =>
        tt.setSpeed now (FloatVal.finite clamped)
      playback_speed := clamped }

/-- `McapPlayer::play`: a no-op when `Ended`, otherwise resumes the tracker
(when present) and sets the status to `Playing`. -/
def play (p : McapPlayer) (now : Nat) : McapPlayer :=
  if p.status = PlaybackStatus.Ended then
    p
  else
    { p with
        time_tracker := p.time_tracker.map fun tt => tt.resume now
        status := PlaybackStatus.Playing }

/-- `McapPlayer::pause`: pauses the tracker (when present) and sets the
status to `Paused`, unconditionally. -/
def pause (p : McapPlayer) (now : Nat) : McapPlayer :=
  { p with
      time_tracker := p.time_tracker.map fun tt => tt.pause now
      status := PlaybackStatus.Paused }

/-- The result of one `McapPlayer::logNextMessage` tick: the optional sleep
duration it returns, the updated player, and the record delivered to the sink
this tick (if any) — the delivery is the `channel.log(...)` call. -/
def logNextMessage (p : McapPlayer) (now : Nat) :
    Option Nat × McapPlayer × Option Record :=
  if p.status ≠ PlaybackStatus.Playing then
    (none, p, none)
  else
    match p.records with
    | [] =>
      (none,
        { p with status := PlaybackStatus.Ended, current_time := p.time_range.2 },
        none)
    | msg :: rest =>
      let tt :=
        match p.time_tracker with
        | some tt => tt
        | none => TimeTracker.init now msg.logTime (FloatVal.finite p.playback_speed)
      let wakeup := tt.wakeupFor now msg.logTime
      if now < wakeup then
        (some (wakeup - now), { p with time_tracker := some tt }, none)
      else
        let tt := (tt.notify msg.logTime).2
        let delivered :=
          if p.channels.contains msg.channelId then some msg else none
        (none,
          { p with
              time_tracker := some tt
              current_time := msg.logTime
              records := rest },
          delivered)

end McapPlayer

/-- The `onPlaybackControlRequest` handler of `main.cpp`: optionally seek
(recording `did_seek`), apply the requested speed, apply the command, and
build the `PlaybackState` reply. -/
def onPlaybackControlRequest (p : McapPlayer) (req : PlaybackControlRequest)
    (now : Nat) : PlaybackState × McapPlayer :=
  let seeked :=
    match req.seek_time with
    | some t =>
      let r := p.seek t
      (r.1, r.2)
    | none => (true, p)
  let did_seek := req.seek_time.isSome && seeked.1
  let p := seeked.2
  let p := p.setPlaybackSpeed now req.playback_speed
  let p := if req.playback_command then p.play now else p.pause now
  ({ status := p.status
     current_time := p.current_time
     speed := p.playback_speed
     did_seek := did_seek
     request_id := some req.request_id },
    p)

/-- The log times of the records delivered to the sink over a sequence of
`logNextMessage` ticks sampled at the given instants (no intervening seek). -/
def runDeliveries (p : McapPlayer) : List Nat → List Nat
  | [] => []
  | now :: rest =>
    let r := p.logNextMessage now
    match r.2.2 with
    | some msg => msg.logTime :: runDeliveries r.2.1 rest
    | none => runDeliveries r.2.1 rest

/-- The reachable states of a `TimeTracker`: those produced by the
constructor and closed under the mutating operations. -/
inductive TTReachable : TimeTracker → Prop where
  | init : ∀ now offset f, TTReachable (TimeTracker.init now offset f)
  | pauseStep : ∀ tt now, TTReachable tt → TTReachable (tt.pause now)
  | resumeStep : ∀ tt now, TTReachable tt → TTReachable (tt.resume now)
  | setSpeedStep : ∀ tt now f, TTReachable tt → TTReachable (tt.setSpeed now f)
  | notifyStep : ∀ tt c, TTReachable tt → TTReachable (tt.notify c).2
/-- `wakeupFor` with the fallback-delay branch removed: the wall delay is
always computed by dividing the log-time difference by the speed. -/
def wakeupForDirect (tt : TimeTracker) (now log_time : Nat) : Nat :=
  let current := tt.currentLogTime now
  if log_time ≤ current then
    now
  else
    now + castUInt64 (((log_time - current : Nat) : ℚ) / tt.speed)
/-- A small concrete player over a two-record corpus on channel 1 with time
range `[10, 20]`, used to instantiate theorems with hypotheses. -/
def samplePlayer : McapPlayer :=
  { corpus := [⟨1, 10⟩, ⟨1, 20⟩]
    channels := [1]
    records := [⟨1, 10⟩, ⟨1, 20⟩]
    time_tracker := none
    time_range := (10, 20)
    status := PlaybackStatus.Paused
    current_time := 10
    playback_speed := 1 }
/-- A control request that seeks to the player's current position. -/
def sameSpotRequest : PlaybackControlRequest :=
  { request_id := 7
    playback_command := false
    playback_speed := FloatVal.finite 1
    seek_time := some 10 }
/-- A player driven to exhaustion: `Ended` at the end of the range. -/
def endedPlayer : McapPlayer :=
  { samplePlayer with
      status := PlaybackStatus.Ended
      current_time := 20
      records := [] }
/-- A concrete player in `Playing` state whose only record sits at log time
`20` while its tracker is anchored at `10`, over the time range `[10, 20]`. -/
def c4Player : McapPlayer :=
  { corpus := [⟨1, 20⟩]
    channels := [1]
    records := [⟨1, 20⟩]
    time_tracker := some (TimeTracker.init 0 10 (FloatVal.finite 1))
    time_range := (10, 20)
    status := PlaybackStatus.Playing
    current_time := 10
    playback_speed := 1 }
/-- The sample player in `Playing` state. -/
def playingPlayer : McapPlayer :=
  { samplePlayer with status := PlaybackStatus.Playing }

/-! ## Helper lemmas -/

theorem castUInt64_zero : castUInt64 0 = 0 := by
  decide

theorem elapsedNs_self (now : Nat) (s : ℚ) : TimeTracker.elapsedNs now now s = 0 := by
  simp [TimeTracker.elapsedNs, Nat.sub_self, castUInt64_zero]

theorem kMinPlaybackSpeed_pos : 0 < kMinPlaybackSpeed := by
  norm_num [kMinPlaybackSpeed]

theorem clampSpeed_ge (f : FloatVal) : kMinPlaybackSpeed ≤ clampSpeed f := by
  cases f <;> simp [clampSpeed]
  split
  · assumption
  · exact le_refl _

/-- Clamping an already-clamped (finite, at least minimum) speed returns it
unchanged. -/
theorem clampSpeed_finite_of_ge (q : ℚ) (h : kMinPlaybackSpeed ≤ q) :
    clampSpeed (FloatVal.finite q) = q := by
  simp [clampSpeed, h]

/-- C7: the virtual clock reads `log_anchor` while paused (hence is constant
under real-time delay while paused) and `log_anchor + elapsed * speed` while
not paused; `pause`, `resume` and `setSpeed` each preserve the value of
`currentLogTime` at the instant they are applied (and a pause freezes it at
that value for every later reading), so a mid-flight `setSpeed` causes no
discontinuity. -/
theorem timeTracker_invariant_continuity (tt : TimeTracker) (now now2 : Nat)
    (f : FloatVal) :
    (tt.currentLogTime now =
      if tt.paused then tt.logAnchor
      else tt.logAnchor + TimeTracker.elapsedNs now tt.start tt.speed) ∧
    (tt.pause now).currentLogTime now2 = tt.currentLogTime now ∧
    (tt.resume now).currentLogTime now = tt.currentLogTime now ∧
    (tt.setSpeed now f).currentLogTime now = tt.currentLogTime now := by
  refine ⟨?_, ?_, ?_, ?_⟩
  · cases htp : tt.paused <;>
      simp [TimeTracker.currentLogTime, TimeTracker.logAnchor, htp]
  · cases htp : tt.paused
    · simp [TimeTracker.currentLogTime, TimeTracker.pause, htp]
      omega
    · simp [TimeTracker.currentLogTime, TimeTracker.pause, htp]
  · cases htp : tt.paused <;>
      simp [TimeTracker.currentLogTime, TimeTracker.resume, htp, elapsedNs_self]
  · cases htp : tt.paused
    · simp [TimeTracker.currentLogTime, TimeTracker.setSpeed, htp, elapsedNs_self]
      omega
    · simp [TimeTracker.currentLogTime, TimeTracker.setSpeed, htp, elapsedNs_self]

/-- C8: `pause` and `resume` are idempotent as state transformers — a second
call (at any later instant) leaves the tracker state exactly as after the
first call, so no elapsed time is double-accumulated. -/
theorem timeTracker_pause_resume_idempotent (tt : TimeTracker) (now now2 : Nat) :
    (tt.pause now).pause now2 = tt.pause now ∧
    (tt.resume now).resume now2 = tt.resume now := by
  constructor
  · cases htp : tt.paused <;> simp [TimeTracker.pause, htp]
  · cases htp : tt.paused <;> simp [TimeTracker.resume, htp]

/-- C9: every speed input — finite values at or above the minimum, finite
values below it, and non-finite values — is accepted by `setPlaybackSpeed`
with no error path: the effective stored speed is the input when it is finite
and at least `1/100` (the embedding of `0.01f`), and `1/100` otherwise; the
result is always at least the minimum, and the tracker (when present) adopts
the same clamped speed. -/
theorem setPlaybackSpeed_total_clamp (p : McapPlayer) (now : Nat) (f : FloatVal) :
    ((p.setPlaybackSpeed now f).playback_speed =
      match f with
      | FloatVal.finite q => if (1 : ℚ) / 100 ≤ q then q else (1 : ℚ) / 100
      | _ => (1 : ℚ) / 100) ∧
    kMinPlaybackSpeed ≤ (p.setPlaybackSpeed now f).playback_speed ∧
    (p.setPlaybackSpeed now f).time_tracker.map TimeTracker.speed =
      p.time_tracker.map fun _ => clampSpeed f := by
  refine ⟨?_, ?_, ?_⟩
  · cases f <;> simp [McapPlayer.setPlaybackSpeed, clampSpeed, kMinPlaybackSpeed]
  · simpa [McapPlayer.setPlaybackSpeed] using clampSpeed_ge f
  · cases htr : p.time_tracker with
    | none => simp [McapPlayer.setPlaybackSpeed, htr]
    | some tt =>
      have hge := clampSpeed_ge f
      cases htp : tt.paused <;>
        simp [McapPlayer.setPlaybackSpeed, htr, TimeTracker.setSpeed, htp,
          clampSpeed_finite_of_ge _ hge]



theorem ttReachable_speed_ge (tt : TimeTracker) (h : TTReachable tt) :
    kMinPlaybackSpeed ≤ tt.speed := by
  induction h with
  | init now offset f => exact clampSpeed_ge f
  | pauseStep tt now _ ih =>
    cases htp : tt.paused <;> simpa [TimeTracker.pause, htp] using ih
  | resumeStep tt now _ ih =>
    cases htp : tt.paused <;> simpa [TimeTracker.resume, htp] using ih
  | setSpeedStep tt now f _ ih =>
    cases htp : tt.paused <;> simpa [TimeTracker.setSpeed, htp] using clampSpeed_ge f
  | notifyStep tt c _ ih =>
    by_cases hn : tt.notify_interval_ns ≤ c - tt.notify_last <;>
      simpa [TimeTracker.notify, hn] using ih

/-- C10: every reachable `TimeTracker` has `speed ≥ 0.01`, hence the
`speed_ > 0.0f` guard in `wakeupFor` always holds: the division is by a
positive number and the 1-second fallback-delay branch is unreachable
(`wakeupFor` coincides with the guard-free `wakeupForDirect`). -/
theorem timeTracker_speed_invariant_wakeup (tt : TimeTracker)
    (h : TTReachable tt) :
    kMinPlaybackSpeed ≤ tt.speed ∧ 0 < tt.speed ∧
    ∀ now log_time : Nat, tt.wakeupFor now log_time = wakeupForDirect tt now log_time := by
  have hge := ttReachable_speed_ge tt h
  have hpos : 0 < tt.speed := lt_of_lt_of_le kMinPlaybackSpeed_pos hge
  refine ⟨hge, hpos, fun now log_time => ?_⟩
  simp [TimeTracker.wakeupFor, wakeupForDirect, hpos]

/-- Witness for C10 at a concrete reachable tracker. -/
theorem timeTracker_speed_invariant_wakeup_witness :
    kMinPlaybackSpeed ≤ (TimeTracker.init 0 0 (FloatVal.finite 1)).speed ∧
    0 < (TimeTracker.init 0 0 (FloatVal.finite 1)).speed ∧
    ∀ now log_time : Nat,
      (TimeTracker.init 0 0 (FloatVal.finite 1)).wakeupFor now log_time =
        wakeupForDirect (TimeTracker.init 0 0 (FloatVal.finite 1)) now log_time :=
  timeTracker_speed_invariant_wakeup (TimeTracker.init 0 0 (FloatVal.finite 1))
    (TTReachable.init 0 0 (FloatVal.finite 1))

/-! ## Seek helper lemmas -/

theorem seek_statusAux (p : McapPlayer) (t : Nat) :
    (p.seek t).2.status =
      if p.status = PlaybackStatus.Ended then PlaybackStatus.Paused
      else p.status := by
  simp only [McapPlayer.seek, McapPlayer.resetMessageView]
  split <;> simp_all

theorem seek_current_timeAux (p : McapPlayer) (t : Nat) :
    (p.seek t).2.current_time = max p.time_range.1 (min t p.time_range.2) := by
  simp only [McapPlayer.seek, McapPlayer.resetMessageView]
  split <;> rfl

theorem seek_trackerAux (p : McapPlayer) (t : Nat) :
    (p.seek t).2.time_tracker = none := by
  simp only [McapPlayer.seek, McapPlayer.resetMessageView]
  split <;> rfl

theorem seek_speedAux (p : McapPlayer) (t : Nat) :
    (p.seek t).2.playback_speed = p.playback_speed := by
  simp only [McapPlayer.seek, McapPlayer.resetMessageView]
  split <;> rfl

theorem seek_fstAux (p : McapPlayer) (t : Nat) : (p.seek t).1 = true := by
  rfl


/-- C5: `seek` never rejects a target: it returns `true` for every input and
sets `current_time` to the target clamped into `[range.start, range.end]`; in
particular `seek (range.end + 1)` lands on `range.end` and
`seek (range.start - 1)` lands on `range.start`. -/
theorem seek_clamps (p : McapPlayer) (t : Nat)
    (h : p.time_range.1 ≤ p.time_range.2) :
    (p.seek t).1 = true ∧
    (p.seek t).2.current_time = max p.time_range.1 (min t p.time_range.2) ∧
    (p.seek (p.time_range.2 + 1)).2.current_time = p.time_range.2 ∧
    (p.seek (p.time_range.1 - 1)).2.current_time = p.time_range.1 := by
  refine ⟨seek_fstAux p t, seek_current_timeAux p t, ?_, ?_⟩
  · rw [seek_current_timeAux]
    omega
  · rw [seek_current_timeAux]
    omega

/-- Witness for C5 on the concrete sample player. -/
theorem seek_clamps_witness :
    samplePlayer.time_range.1 ≤ samplePlayer.time_range.2 ∧
    ((samplePlayer.seek 25).1 = true ∧
      (samplePlayer.seek 25).2.current_time =
        max samplePlayer.time_range.1 (min 25 samplePlayer.time_range.2) ∧
      (samplePlayer.seek (samplePlayer.time_range.2 + 1)).2.current_time =
        samplePlayer.time_range.2 ∧
      (samplePlayer.seek (samplePlayer.time_range.1 - 1)).2.current_time =
        samplePlayer.time_range.1) :=
  ⟨by decide, seek_clamps samplePlayer 25 (by decide)⟩

/-- C6: for every target, `seek` turns an `Ended` status into `Paused` and
otherwise leaves the `Playing`/`Paused` status unchanged. -/
theorem seek_status_transition (p : McapPlayer) (t : Nat) :
    (p.seek t).2.status =
      if p.status = PlaybackStatus.Ended then PlaybackStatus.Paused
      else p.status :=
  seek_statusAux p t


/-- C2 counterexample: a request whose `seek_time` equals the current
position produces a reply with `did_seek = true` even though handling the
seek did not change the playback position, refuting the claimed
equivalence. -/
theorem did_seek_counterexample :
    (onPlaybackControlRequest samplePlayer sameSpotRequest 0).1.did_seek = true ∧
    (onPlaybackControlRequest samplePlayer sameSpotRequest 0).2.current_time =
      samplePlayer.current_time ∧
    ¬((onPlaybackControlRequest samplePlayer sameSpotRequest 0).1.did_seek = true ↔
        (onPlaybackControlRequest samplePlayer sameSpotRequest 0).2.current_time ≠
          samplePlayer.current_time) := by
  decide

/-- C2 amended: the `did_seek` field of the reply is true iff the request
carried a `seek_time` at all — `McapPlayer::seek` always reports success, so
`did_seek` does not track whether the position actually changed. -/
theorem did_seek_eq_seek_time_present (p : McapPlayer)
    (req : PlaybackControlRequest) (now : Nat) :
    (onPlaybackControlRequest p req now).1.did_seek = req.seek_time.isSome := by
  cases hst : req.seek_time <;>
    simp [onPlaybackControlRequest, hst, seek_fstAux]


/-- C3 counterexample: `pause()` is a non-seek operation, yet invoked in the
`Ended` state it changes the status to `Paused`, so `Ended` is not preserved
by every non-seek operation. -/
theorem ended_pause_counterexample :
    endedPlayer.status = PlaybackStatus.Ended ∧
    (endedPlayer.pause 0).status = PlaybackStatus.Paused ∧
    (endedPlayer.pause 0).status ≠ PlaybackStatus.Ended := by
  decide

/-- C3 amended: in the `Ended` state, `play()` is a complete no-op (so the
status stays `Ended`), `setPlaybackSpeed` and `logNextMessage` leave the
state untouched (and deliver nothing), but `pause()` moves the status to
`Paused`; only a seek (or a pause) leaves the `Ended` status. -/
theorem ended_state_transitions (p : McapPlayer) (now now2 now3 now4 : Nat)
    (f : FloatVal) (h : p.status = PlaybackStatus.Ended) :
    p.play now = p ∧
    (p.setPlaybackSpeed now2 f).status = PlaybackStatus.Ended ∧
    (p.logNextMessage now3).2.1 = p ∧
    (p.logNextMessage now3).2.2 = none ∧
    (p.pause now4).status = PlaybackStatus.Paused := by
  refine ⟨?_, ?_, ?_, ?_, ?_⟩
  · simp [McapPlayer.play, h]
  · simp [McapPlayer.setPlaybackSpeed]
    exact h
  · simp [McapPlayer.logNextMessage, h]
  · simp [McapPlayer.logNextMessage, h]
  · simp [McapPlayer.pause]

/-- Witness for the amended C3 on the concrete exhausted player. -/
theorem ended_state_transitions_witness :
    endedPlayer.status = PlaybackStatus.Ended ∧
    (endedPlayer.play 0 = endedPlayer ∧
      (endedPlayer.setPlaybackSpeed 1 (FloatVal.finite 2)).status =
        PlaybackStatus.Ended ∧
      (endedPlayer.logNextMessage 2).2.1 = endedPlayer ∧
      (endedPlayer.logNextMessage 2).2.2 = none ∧
      (endedPlayer.pause 3).status = PlaybackStatus.Paused) :=
  ⟨by decide,
    ended_state_transitions endedPlayer 0 1 2 3 (FloatVal.finite 2) (by decide)⟩

/-- `notify` only updates `notify_last`; all other tracker fields are
preserved. -/
theorem notify_preserves (tt : TimeTracker) (c : Nat) :
    (tt.notify c).2.offset_ns = tt.offset_ns ∧
    (tt.notify c).2.speed = tt.speed ∧
    (tt.notify c).2.paused = tt.paused ∧
    (tt.notify c).2.start = tt.start ∧
    (tt.notify c).2.paused_elapsed_ns = tt.paused_elapsed_ns := by
  by_cases hn : tt.notify_interval_ns ≤ c - tt.notify_last <;>
    simp [TimeTracker.notify, hn]

/-- When a tick runs in `Playing` state with a pending record and no tracker,
the tracker emplaced by `logNextMessage` is anchored at the pending record's
log time with the player's current speed (whichever branch the tick takes). -/
theorem logNextMessage_tracker_init (p : McapPlayer) (now : Nat)
    (msg : Record) (rest : List Record)
    (h1 : p.status = PlaybackStatus.Playing)
    (h2 : p.records = msg :: rest)
    (h3 : p.time_tracker = none) :
    ∃ tt : TimeTracker,
      (p.logNextMessage now).2.1.time_tracker = some tt ∧
      tt.offset_ns = msg.logTime ∧
      tt.speed = clampSpeed (FloatVal.finite p.playback_speed) ∧
      tt.paused = false ∧
      tt.start = now ∧
      tt.paused_elapsed_ns = 0 := by
  simp only [McapPlayer.logNextMessage, h1, h2, h3]
  simp only [ne_eq, not_true_eq_false, if_false, reduceIte]
  split
  · exact ⟨_, rfl, rfl, rfl, rfl, rfl, rfl⟩
  · refine ⟨_, rfl, ?_, ?_, ?_, ?_, ?_⟩
    all_goals
      simp only [TimeTracker.notify, TimeTracker.init]
      split <;> rfl


/-- C4 counterexample: seeking to `15`, strictly between the records of a
corpus whose only record is at `20`, leaves no tracker at all (`time_tracker`
becomes `none`), and the tracker lazily recreated on the next tick is anchored
at `20` — the pending record's log time — not at the clamped seek target `15`,
and its first current-log-time reading is `20`, not `15`. -/
theorem seek_tracker_counterexample :
    (c4Player.seek 15).2.time_tracker = none ∧
    (c4Player.seek 15).2.current_time = 15 ∧
    ((c4Player.seek 15).2.logNextMessage 100).2.1.time_tracker.map
        TimeTracker.offset_ns ≠ some 15 ∧
    ((c4Player.seek 15).2.logNextMessage 100).2.1.time_tracker.map
        TimeTracker.offset_ns = some 20 ∧
    ((c4Player.seek 15).2.logNextMessage 100).2.1.time_tracker.map
        (fun tt => tt.currentLogTime 100) = some 20 := by
  have hst : (c4Player.seek 15).2.status = PlaybackStatus.Playing := by
    rw [seek_statusAux]
    decide
  have hrec : (c4Player.seek 15).2.records = [⟨1, 20⟩] := by
    decide
  obtain ⟨tt, htt, ho, hs, hp, hstart, hpe⟩ :=
    logNextMessage_tracker_init (c4Player.seek 15).2 100 ⟨1, 20⟩ [] hst hrec
      (seek_trackerAux c4Player 15)
  have hct : (c4Player.seek 15).2.current_time = 15 := by
    rw [seek_current_timeAux]
    decide
  refine ⟨seek_trackerAux c4Player 15, hct, ?_, ?_, ?_⟩
  · simp [htt, ho]
  · simp [htt, ho]
  · simp [htt, TimeTracker.currentLogTime, hp, ho, hpe, hstart, elapsedNs_self]

/-- C4 amended: `seek(t)` clamps `t`, sets `current_time` to the clamped
value and destroys the `TimeTracker`; the tracker is only recreated on the
next `Playing` tick, anchored at the log time of the first remaining record
(which exceeds the seek target whenever no record sits exactly at it) with
the playback speed current at that tick, and its current-log-time reading at
that tick equals that record's log time. -/
theorem seek_destroys_tracker_lazy_reinit (p : McapPlayer) (t now : Nat)
    (msg : Record) (rest : List Record)
    (h1 : p.status = PlaybackStatus.Playing)
    (h2 : (p.seek t).2.records = msg :: rest)
    (h3 : kMinPlaybackSpeed ≤ p.playback_speed) :
    (p.seek t).2.time_tracker = none ∧
    (p.seek t).2.current_time = max p.time_range.1 (min t p.time_range.2) ∧
    ((p.seek t).2.logNextMessage now).2.1.time_tracker.map
        TimeTracker.offset_ns = some msg.logTime ∧
    ((p.seek t).2.logNextMessage now).2.1.time_tracker.map
        TimeTracker.speed = some p.playback_speed ∧
    ((p.seek t).2.logNextMessage now).2.1.time_tracker.map
        (fun tt => tt.currentLogTime now) = some msg.logTime := by
  have hst : (p.seek t).2.status = PlaybackStatus.Playing := by
    rw [seek_statusAux]
    simp [h1]
  obtain ⟨tt, htt, ho, hs, hp, hstart, hpe⟩ :=
    logNextMessage_tracker_init (p.seek t).2 now msg rest hst h2
      (seek_trackerAux p t)
  have hspeed : tt.speed = p.playback_speed := by
    rw [hs, seek_speedAux, clampSpeed_finite_of_ge _ h3]
  refine ⟨seek_trackerAux p t, seek_current_timeAux p t, ?_, ?_, ?_⟩
  · simp [htt, ho]
  · simp [htt, hspeed]
  · simp [htt, TimeTracker.currentLogTime, hp, ho, hpe, hstart, elapsedNs_self]

/-- Witness for the amended C4 on the concrete playing player. -/
theorem seek_destroys_tracker_lazy_reinit_witness :
    (c4Player.status = PlaybackStatus.Playing ∧
      (c4Player.seek 15).2.records = [⟨1, 20⟩] ∧
      kMinPlaybackSpeed ≤ c4Player.playback_speed) ∧
    ((c4Player.seek 15).2.time_tracker = none ∧
      (c4Player.seek 15).2.current_time =
        max c4Player.time_range.1 (min 15 c4Player.time_range.2) ∧
      ((c4Player.seek 15).2.logNextMessage 100).2.1.time_tracker.map
          TimeTracker.offset_ns = some (Record.logTime ⟨1, 20⟩) ∧
      ((c4Player.seek 15).2.logNextMessage 100).2.1.time_tracker.map
          TimeTracker.speed = some c4Player.playback_speed ∧
      ((c4Player.seek 15).2.logNextMessage 100).2.1.time_tracker.map
          (fun tt => tt.currentLogTime 100) = some (Record.logTime ⟨1, 20⟩)) :=
  ⟨⟨by decide, by decide, by norm_num [c4Player, kMinPlaybackSpeed]⟩,
    seek_destroys_tracker_lazy_reinit c4Player 15 100 ⟨1, 20⟩ []
      (by decide) (by decide) (by norm_num [c4Player, kMinPlaybackSpeed])⟩

/-- Case analysis of one `logNextMessage` tick, purely in terms of the record
cursor: either nothing is delivered and the cursor is unchanged, or the
cursor's head is consumed (and delivered unless its channel is unmapped). -/
theorem logNextMessage_records (p : McapPlayer) (now : Nat) :
    ((p.logNextMessage now).2.2 = none ∧
      (p.logNextMessage now).2.1.records = p.records) ∨
    (∃ msg rest, p.records = msg :: rest ∧
      (p.logNextMessage now).2.1.records = rest ∧
      ((p.logNextMessage now).2.2 = none ∨
        (p.logNextMessage now).2.2 = some msg)) := by
  by_cases hs : p.status = PlaybackStatus.Playing
  · cases hrec : p.records with
    | nil =>
      left
      simp [McapPlayer.logNextMessage, hs, hrec]
    | cons msg rest =>
      simp only [McapPlayer.logNextMessage, hs, hrec, ne_eq, not_true_eq_false,
        if_false, reduceIte]
      split
      · left
        exact ⟨rfl, rfl⟩
      · right
        refine ⟨msg, rest, rfl, rfl, ?_⟩
        by_cases hc : p.channels.contains msg.channelId
        · right
          rw [if_pos hc]
        · left
          rw [if_neg hc]
  · left
    simp [McapPlayer.logNextMessage, hs]

/-- Over any tick sequence, the delivered log times form a sublist of the log
times of the records initially pending on the cursor, in cursor order. -/
theorem runDeliveries_sublist (nows : List Nat) :
    ∀ p : McapPlayer,
      (runDeliveries p nows).Sublist (p.records.map Record.logTime) := by
  induction nows with
  | nil =>
    intro p
    simp [runDeliveries]
  | cons now rest ih =>
    intro p
    rcases logNextMessage_records p now with ⟨hd, hr⟩ | ⟨msg, rest', hrec, hr, hd⟩
    · have heq : runDeliveries p (now :: rest) =
          runDeliveries (p.logNextMessage now).2.1 rest := by
        simp [runDeliveries, hd]
      rw [heq]
      have h2 := ih (p.logNextMessage now).2.1
      rwa [hr] at h2
    · cases hd with
      | inl hnone =>
        have heq : runDeliveries p (now :: rest) =
            runDeliveries (p.logNextMessage now).2.1 rest := by
          simp [runDeliveries, hnone]
        rw [heq, hrec]
        have h2 := ih (p.logNextMessage now).2.1
        rw [hr] at h2
        simpa using List.Sublist.cons msg.logTime h2
      | inr hsome =>
        have heq : runDeliveries p (now :: rest) =
            msg.logTime :: runDeliveries (p.logNextMessage now).2.1 rest := by
          simp [runDeliveries, hsome]
        rw [heq, hrec]
        have h2 := ih (p.logNextMessage now).2.1
        rw [hr] at h2
        simpa using List.Sublist.cons₂ msg.logTime h2

/-- C1: over any sequence of pacer ticks with no intervening seek, if the
cursor's pending records are in non-decreasing log-time order then the log
times of the records delivered to the sink are non-decreasing. -/
theorem mcapPlayer_monotonic_delivery (p : McapPlayer) (nows : List Nat)
    (h : (p.records.map Record.logTime).Pairwise (· ≤ ·)) :
    (runDeliveries p nows).Pairwise (· ≤ ·) :=
  List.Pairwise.sublist (runDeliveries_sublist nows p) h


/-- Witness for C1 on the concrete playing player. -/
theorem mcapPlayer_monotonic_delivery_witness :
    (playingPlayer.records.map Record.logTime).Pairwise (· ≤ ·) ∧
    (runDeliveries playingPlayer [0, 10]).Pairwise (· ≤ ·) :=
  ⟨by decide, mcapPlayer_monotonic_delivery playingPlayer [0, 10] (by decide)⟩
